import Mathlib


/-!
Shallow embedding of the ParseLab repository: the TTL cache subsystem
(in-memory and file-based strategies), the cache switch coordinator with
its migration routine, the job queue's processing loop, retry policy and
graceful shutdown, and the worker pool (dispatch, crash handling and
shutdown), together with the worker-side text analyzer.

Time is modelled as a natural number of milliseconds passed explicitly to
every operation that reads the clock.  JS `Map`s and the cache directory
are modelled as association lists in insertion order.
-/

/-! ## Association-list maps (JS `Map` / directory of files) -/

/-- Lookup of the first binding of a key (JS `Map.get` / reading one file). -/
def alookup {κ β : Type} [DecidableEq κ] : List (κ × β) → κ → Option β
  | [], _ => none
  | (k, v) :: m, k0 => if k = k0 then some v else alookup m k0

/-- `Map.set` semantics: overwrite in place keeping insertion order, else append. -/
def aset {κ β : Type} [DecidableEq κ] : List (κ × β) → κ → β → List (κ × β)
  | [], k0, v0 => [(k0, v0)]
  | (k, v) :: m, k0, v0 =>
    if k = k0 then (k0, v0) :: m else (k, v) :: aset m k0 v0

/-- `Map.delete` semantics / deleting one file. -/
def adel {κ β : Type} [DecidableEq κ] : List (κ × β) → κ → List (κ × β)
  | [], _ => []
  | (k, v) :: m, k0 => if k = k0 then m else (k, v) :: adel m k0

/-- Well-formedness of a map: no duplicate keys (always true of a JS `Map`
and of a directory listing). -/
def nodupKeys {κ β : Type} (m : List (κ × β)) : Prop :=
  (m.map Prod.fst).Nodup

instance {κ β : Type} [DecidableEq κ] (m : List (κ × β)) : Decidable (nodupKeys m) := by
  unfold nodupKeys; infer_instance

/-! ## Cache data model -/

/-- One in-memory entry: `{ value, expiresAt }` (src/cache/inMemoryCache). -/
structure MemEntry (α : Type) where
  value : α
  expiresAt : ℕ
deriving DecidableEq, Repr

/-- The in-memory strategy's backing `Map`. -/
abbrev Mem (α : Type) := List (String × MemEntry α)

/-- Externally visible entry shape returned by `getAllEntries`
(src/cache/cacheInterface: `{key, value, ttlMs}`). -/
structure CacheEntry (α : Type) where
  key : String
  value : α
  ttlMs : ℕ
deriving DecidableEq, Repr

/-- Contents of one file of the file-based cache: either a well-formed
JSON record `{key, value, expiresAt}` or unparsable bytes. -/
inductive FileData (α : Type) where
  | corrupt
  | entry (key : String) (value : α) (expiresAt : ℕ)
deriving DecidableEq, Repr

/-- The file-based strategy's backing directory: filename → contents.
Every file the cache writes is named `<sanitized key>.json`; filenames in
this model omit the common `.json` extension (writes go through a `.tmp`
then an atomic rename, so no `.tmp` file is ever observable). -/
abbrev FileSys (α : Type) := List (String × FileData α)

namespace InMemoryCache

/-- `set(key, value, ttlMs)`: stores `{value, expiresAt = now + ttlMs}`. -/
def set {α : Type} (m : Mem α) (key : String) (value : α) (ttlMs now : ℕ) : Mem α :=
  aset m key ⟨value, now + ttlMs⟩

/-- `get(key)`: returns the value if present and unexpired; deletes the map
entry and returns absent when `Date.now() > entry.expiresAt`.  The second
component is the backing map after the read. -/
def get {α : Type} (m : Mem α) (key : String) (now : ℕ) : Option α × Mem α :=
  match alookup m key with
  | none => (none, m)
  | some e => if now > e.expiresAt then (none, adel m key) else (some e.value, m)

/-- `clear()`: removes all entries. -/
def clear {α : Type} (_m : Mem α) : Mem α := []

/-- `getAllEntries()`: unexpired entries with remaining TTL `expiresAt - now`. -/
def getAllEntries {α : Type} (m : Mem α) (now : ℕ) : List (CacheEntry α) :=
  m.filterMap fun p =>
    if p.2.expiresAt > now then some ⟨p.1, p.2.value, p.2.expiresAt - now⟩ else none

/-- The periodic sweep: deletes every entry with `expiresAt ≤ now`. -/
def cleanup {α : Type} (m : Mem α) (now : ℕ) : Mem α :=
  m.filter fun p => decide (now < p.2.expiresAt)

end InMemoryCache

namespace FileBasedCache

/-- Key sanitization: every character outside `[a-zA-Z0-9_-]` becomes `_`. -/
def sanitizeKey (key : String) : String :=
  ⟨key.data.map fun c => if c.isAlphanum ∨ c = '_' ∨ c = '-' then c else '_'⟩

/-- `getFilePath`: the file for a key inside the cache directory
(`<sanitized key>.json`; the `.json` extension is implicit in `FileSys`). -/
def getFilePath (key : String) : String := sanitizeKey key

/-- `set(key, value, ttlMs)`: serialize `{key, value, expiresAt}` and
atomically rename over the final path (the temp-file step collapses to a
single map update in this model). -/
def set {α : Type} (fs : FileSys α) (key : String) (value : α) (ttlMs now : ℕ) :
    FileSys α :=
  aset fs (getFilePath key) (.entry key value (now + ttlMs))

/-- `get(key)`: absent if no file; a corrupted file is deleted and treated
as absent; an expired file is deleted and treated as absent; otherwise the
stored value is returned.  Note the stored original key is NOT compared
against the requested key. -/
def get {α : Type} (fs : FileSys α) (key : String) (now : ℕ) :
    Option α × FileSys α :=
  match alookup fs (getFilePath key) with
  | none => (none, fs)
  | some .corrupt => (none, adel fs (getFilePath key))
  | some (.entry _ v expiresAt) =>
    if now > expiresAt then (none, adel fs (getFilePath key))
    else (some v, fs)

/-- `clear()`: deletes every `.json` and `.tmp` file in the directory —
i.e. every file the cache directory holds. -/
def clear {α : Type} (_fs : FileSys α) : FileSys α := []

/-- `filename.replace(/\.json$/,'').replace(/_/g,':')` (the extension is
already implicit in the modelled filename). -/
def reconstructKeyFromFilename (filename : String) : String :=
  ⟨filename.data.map fun c => if c = '_' then ':' else c⟩

/-- One iteration of the `getAllEntries` loop: parse the file, skip it if
corrupted or expired, otherwise yield the embedded original key (falling
back to lossy filename reconstruction when the embedded key is the empty
string, which is falsy in JS) with the remaining TTL. -/
def readEntry {α : Type} (now : ℕ) (p : String × FileData α) : Option (CacheEntry α) :=
  match p.2 with
  | .corrupt => none
  | .entry k v expiresAt =>
    if expiresAt > now then
      some ⟨if k = "" then reconstructKeyFromFilename p.1 else k, v, expiresAt - now⟩
    else none

/-- `getAllEntries()`: every parsable, unexpired `.json` file; corrupted
files are skipped, never aborting the enumeration. -/
def getAllEntries {α : Type} (fs : FileSys α) (now : ℕ) : List (CacheEntry α) :=
  fs.filterMap (readEntry now)

end FileBasedCache

/-! ## Job queue processing loop (src/jobQueue.ts, processNext) -/

/-- A job record; only the fields the processing loop reads and mutates. -/
structure Job where
  jobId : String
  attempts : ℕ
deriving DecidableEq, Repr

/-- Which of the fallible operations inside one `processNext` run succeed.
A `false` component models that operation throwing. -/
structure ProcEnv where
  processingSetOk : Bool
  analysisOk : Bool
  completedSetOk : Bool
  storeOk : Bool
  failedSetOk : Bool
deriving DecidableEq, Repr

/-- Terminal effect of one `processNext` run on the popped job. -/
inductive Outcome where
  | completed
  | retryScheduled (backoffMs : ℕ)
  | markedFailed
deriving DecidableEq, Repr

/-- Observable result of one `processNext` run.  `processNext` is total:
every throw inside it is caught, so the queue itself never crashes. -/
structure ProcResult where
  job : Job
  outcome : Outcome
  processedInc : ℕ
  retriedInc : ℕ
  failedInc : ℕ
  pendingRetriesInc : ℕ
  storeWritten : Bool
  failedStatusWritten : Bool
deriving DecidableEq, Repr

namespace JobQueue

/-- One run of the body of `processNext` on a popped job.  The `try` block
covers the `processing`-status cache set, the analysis, and the
`completed`-status cache set; a throw from any of them lands in the
`catch` retry/fail path.  The `jsonStore.saveJobResult` call and the
`failed`-status cache set sit in their own `try`/`catch` and are
swallowed. -/
def processNext (j : Job) (env : ProcEnv) : ProcResult :=
  if env.processingSetOk ∧ env.analysisOk ∧ env.completedSetOk then
    { job := j, outcome := .completed, processedInc := 1, retriedInc := 0,
      failedInc := 0, pendingRetriesInc := 0, storeWritten := env.storeOk,
      failedStatusWritten := false }
  else
    let j2 : Job := { j with attempts := j.attempts + 1 }
    if j2.attempts ≤ 3 then
      { job := j2, outcome := .retryScheduled (500 * 2 ^ (j2.attempts - 1)),
        processedInc := 0, retriedInc := 1, failedInc := 0,
        pendingRetriesInc := 1, storeWritten := false, failedStatusWritten := false }
    else
      { job := j2, outcome := .markedFailed, processedInc := 0, retriedInc := 0,
        failedInc := 1, pendingRetriesInc := 0, storeWritten := false,
        failedStatusWritten := env.failedSetOk }

/-- Run the job repeatedly under a fixed environment, following each
scheduled retry (the retry timer re-enqueues the same job object), until
a terminal outcome or fuel runs out. -/
def runAttempts (env : ProcEnv) : Job → ℕ → List ProcResult
  | _, 0 => []
  | j, fuel + 1 =>
    let r := processNext j env
    match r.outcome with
    | .retryScheduled _ => r :: runAttempts env r.job fuel
    | _ => [r]

end JobQueue

/-! ## Job queue graceful shutdown (src/jobQueue.ts, shutdown) -/

namespace JobQueue

/-- The drain loop of `shutdown`: starting at poll tick `k` (time `25·k` ms,
one tick per `setTimeout(resolve, 25)` sleep), keep sleeping while work is
pending and the elapsed time is still below `timeoutMs`.  Returns the tick
at which the loop exits.  `fuel` bounds the recursion; `shutdown` passes
enough fuel for the timeout check to fire first. -/
def shutdownPollsGo (pending : ℕ → Bool) (timeoutMs : ℕ) : ℕ → ℕ → ℕ
  | k, 0 => k
  | k, fuel + 1 =>
    if pending k ∧ 25 * k < timeoutMs then
      shutdownPollsGo pending timeoutMs (k + 1) fuel
    else k

/-- Number of poll ticks the `shutdown` drain loop runs for. -/
def shutdownPolls (pending : ℕ → Bool) (timeoutMs : ℕ) : ℕ :=
  shutdownPollsGo pending timeoutMs 0 (timeoutMs / 25 + 1)

/-- Observable result of `shutdown(timeoutMs)`. -/
structure ShutdownResult where
  blockedMs : ℕ
  runningAfter : Bool
  residualReported : Bool
  stateDestroyed : Bool
  poolShutdownCalled : Bool
deriving DecidableEq, Repr

/-- `shutdown(timeoutMs)`: no-op if the queue is not running; otherwise
poll every 25ms until active jobs, queued jobs and pending retries all
drain (`pending` turns false) or the elapsed time reaches `timeoutMs`,
then set `running = false`, log a warning with the residual counts if work
remains (destroying nothing), and shut the worker pool down before
returning. -/
def shutdown (running : Bool) (hasPool : Bool) (pending : ℕ → Bool)
    (timeoutMs : ℕ) : ShutdownResult :=
  if running then
    let k := shutdownPolls pending timeoutMs
    { blockedMs := 25 * k, runningAfter := false, residualReported := pending k,
      stateDestroyed := false, poolShutdownCalled := hasPool }
  else
    { blockedMs := 0, runningAfter := running, residualReported := false,
      stateDestroyed := false, poolShutdownCalled := false }

end JobQueue

/-! ## Cache switch coordinator (server module, POST /admin/cache/switch) -/

/-- Requested target strategy of a cache switch. -/
inductive Strategy where
  | inmemory
  | file
deriving DecidableEq, Repr

/-- The currently published cache instance.  An in-memory instance owns its
map; a file-based instance's state is the shared cache directory. -/
inductive CacheInst (α : Type) where
  | mem (m : Mem α)
  | file
deriving Repr

/-- Process-wide state: the published `currentCache` reference plus the
cache directory on disk, which survives cache instances. -/
structure Sys (α : Type) where
  current : CacheInst α
  dir : FileSys α

namespace Sys

/-- A `get` issued against the currently published cache. -/
def get {α : Type} (s : Sys α) (key : String) (now : ℕ) : Option α × Sys α :=
  match s.current with
  | .mem m =>
    ((InMemoryCache.get m key now).1, ⟨.mem (InMemoryCache.get m key now).2, s.dir⟩)
  | .file =>
    ((FileBasedCache.get s.dir key now).1, ⟨.file, (FileBasedCache.get s.dir key now).2⟩)

end Sys

/-- Invalidate-mode switch: `await oldCache.clear()`, construct the new
strategy (the `FileBasedCache` constructor only ensures its directory
exists — it does not empty it), then publish it as `currentCache`. -/
def switchInvalidate {α : Type} (s : Sys α) (target : Strategy) : Sys α :=
  let cleared : FileSys α :=
    match s.current with
    | .mem _ => s.dir
    | .file => FileBasedCache.clear s.dir
  match target with
  | .inmemory => ⟨.mem [], cleared⟩
  | .file => ⟨.file, cleared⟩

/-- The body of `migrateCache`: iterate over the enumerated entries in
order, `newCache.set(entry.key, entry.value, entry.ttlMs)` for each;
`ok i` says whether the i-th write succeeds — a throw is logged and
skipped, never aborting the loop.  Returns the entries actually written
(in order, verbatim) and the `migratedCount` the route reports. -/
def migrateLoop {α : Type} (ok : ℕ → Bool) :
    List (CacheEntry α) → ℕ → List (CacheEntry α) × ℕ
  | [], _ => ([], 0)
  | e :: es, i =>
    if ok i then
      (e :: (migrateLoop ok es (i + 1)).1, (migrateLoop ok es (i + 1)).2 + 1)
    else migrateLoop ok es (i + 1)

/-- `migrateCache(oldCache, newCache)` over the already-enumerated
`getAllEntries()` result. -/
def migrateCache {α : Type} (entries : List (CacheEntry α)) (ok : ℕ → Bool) :
    List (CacheEntry α) × ℕ :=
  migrateLoop ok entries 0

/-- Whether a cache instance is the file-based strategy. -/
def CacheInst.isFile {α : Type} : CacheInst α → Bool
  | .mem _ => false
  | .file => true

/-- Whether a file's contents are unparsable. -/
def FileData.isCorrupt {α : Type} : FileData α → Bool
  | .corrupt => true
  | .entry _ _ _ => false

/-- `set` for each pair in order into the in-memory cache. -/
def InMemoryCache.setAll {α : Type} (m : Mem α) (pairs : List (String × α))
    (ttlMs now : ℕ) : Mem α :=
  pairs.foldl (fun acc p => InMemoryCache.set acc p.1 p.2 ttlMs now) m

/-- `set` for each pair in order into the file-based cache. -/
def FileBasedCache.setAll {α : Type} (fs : FileSys α) (pairs : List (String × α))
    (ttlMs now : ℕ) : FileSys α :=
  pairs.foldl (fun acc p => FileBasedCache.set acc p.1 p.2 ttlMs now) fs

/-! ## Text analyzer (src/worker/worker.ts, analyzeText) -/

/-- Whitespace removed by `String.prototype.trim` (ASCII subset). -/
def isJsWhitespace (c : Char) : Bool :=
  c == ' ' || c == '\t' || c == '\n' || c == '\r' || c.toNat == 11 || c.toNat == 12

/-- `content.trim()`. -/
def trimJS (l : List Char) : List Char :=
  ((l.dropWhile isJsWhitespace).reverse.dropWhile isJsWhitespace).reverse

/-- Character class of the word regex `[A-Za-z0-9\-_'`]` (39 and 96 are
the code points of the apostrophe and the backtick). -/
def isWordChar (c : Char) : Bool :=
  c.isAlphanum || c == '-' || c == '_' || c.toNat == 39 || c.toNat == 96

/-- The quote characters stripped from word edges by
`w.replace(/^['`]+|['`]+$/g, '')`. -/
def isQuoteTick (c : Char) : Bool :=
  c.toNat == 39 || c.toNat == 96

/-- Strip the leading and trailing runs of quote characters of a word. -/
def stripQuotes (w : List Char) : List Char :=
  ((w.dropWhile isQuoteTick).reverse.dropWhile isQuoteTick).reverse

/-- Maximal runs of characters satisfying `p`: the semantics of
`text.match(/<class>+/g)`.  Structural recursion on `fuel`, which each
call decreases while the scanned list shrinks by at least one character,
so `fuel = length + 1` never runs out. -/
def splitRunsGo (p : Char → Bool) : ℕ → List Char → List (List Char)
  | 0, _ => []
  | fuel + 1, l =>
    match l with
    | [] => []
    | c :: cs =>
      if p c then (c :: cs.takeWhile p) :: splitRunsGo p fuel (cs.dropWhile p)
      else splitRunsGo p fuel cs

/-- All maximal runs of characters satisfying `p` in the list. -/
def splitRuns (p : Char → Bool) (l : List Char) : List (List Char) :=
  splitRunsGo p (l.length + 1) l

/-- Sentence terminators `[.!?]`. -/
def isTermChar (c : Char) : Bool :=
  c == '.' || c == '!' || c == '?'

/-- Number of matches of `/[^.!?]+[.!?]+/g`: complete (non-terminator run,
terminator run) pairs scanned left to right.  Fueled like `splitRunsGo`. -/
def countSentenceMatchesGo : ℕ → List Char → ℕ
  | 0, _ => 0
  | fuel + 1, l =>
    match l with
    | [] => 0
    | c :: cs =>
      if isTermChar c then countSentenceMatchesGo fuel cs
      else
        match cs.dropWhile (fun x => !isTermChar x) with
        | [] => 0
        | _ :: _ =>
          1 + countSentenceMatchesGo fuel
            ((cs.dropWhile fun x => !isTermChar x).dropWhile isTermChar)

/-- Number of matches of the sentence regex in the list. -/
def countSentenceMatches (l : List Char) : ℕ :=
  countSentenceMatchesGo (l.length + 1) l

/-- Prepend a character to the paragraph currently being accumulated. -/
def consHead (c : Char) : List (List Char) → List (List Char)
  | [] => [[c]]
  | p :: ps => (c :: p) :: ps

/-- `text.split(/\n{2,}/)`: split on each maximal run of two or more
newlines (the greedy quantifier consumes the whole run).  Fueled like
`splitRunsGo`. -/
def splitParagraphsGo : ℕ → List Char → List (List Char)
  | 0, _ => [[]]
  | fuel + 1, l =>
    match l with
    | [] => [[]]
    | '\n' :: '\n' :: rest =>
      [] :: splitParagraphsGo fuel (rest.dropWhile (· == '\n'))
    | c :: rest => consHead c (splitParagraphsGo fuel rest)

/-- The pieces of the paragraph split. -/
def splitParagraphs (l : List Char) : List (List Char) :=
  splitParagraphsGo (l.length + 1) l

/-- `freq.set(key, (freq.get(key) || 0) + 1)`. -/
def bump (m : List (List Char × ℕ)) (k : List Char) : List (List Char × ℕ) :=
  aset m k (((alookup m k).getD 0) + 1)

/-- Insert into a count-descending list after every element of greater or
equal count: composing these inserts left to right reproduces JS's stable
`sort((a, b) => b[1] - a[1])`. -/
def insertByCountDesc (x : List Char × ℕ) :
    List (List Char × ℕ) → List (List Char × ℕ)
  | [] => [x]
  | y :: ys => if x.2 ≤ y.2 then y :: insertByCountDesc x ys else x :: y :: ys

/-- Stable sort by descending count. -/
def sortByCountDesc (l : List (List Char × ℕ)) : List (List Char × ℕ) :=
  l.foldl (fun acc x => insertByCountDesc x acc) []

/-- JS default string comparison: lexicographic by code unit. -/
def ltChars : List Char → List Char → Bool
  | [], [] => false
  | [], _ :: _ => true
  | _ :: _, [] => false
  | a :: as, b :: bs => if a = b then ltChars as bs else decide (a < b)

/-- Insert into a lexicographically ascending list. -/
def insertAscLex (x : List Char) : List (List Char) → List (List Char)
  | [] => [x]
  | y :: ys => if ltChars x y then x :: y :: ys else y :: insertAscLex x ys

/-- `Array.from(freq.keys()).sort()`. -/
def sortLex (l : List (List Char)) : List (List Char) :=
  l.foldl (fun acc x => insertAscLex x acc) []

/-- The structured analysis result (src/worker/pool.ts, AnalysisResult). -/
structure AnalysisResult where
  wordCount : ℕ
  sentenceCount : ℕ
  paragraphCount : ℕ
  longestWord : String
  topNWords : List (String × ℕ)
  uniqueWords : List String
  mostFrequentWord : Option (String × ℕ)
deriving DecidableEq, Repr

/-- The documented zero-value result for empty/whitespace-only input. -/
def zeroAnalysis : AnalysisResult :=
  ⟨0, 0, 0, "", [], [], none⟩

/-- The worker-side `analyzeText` of src/worker/worker.ts. -/
def workerAnalyzeText (content : String) : AnalysisResult :=
  let text := trimJS content.data
  if text.isEmpty then zeroAnalysis
  else
    let paragraphs := (splitParagraphs text).filter fun p => !(trimJS p).isEmpty
    let sentenceMatches := countSentenceMatches text
    let sentenceCount :=
      if sentenceMatches = 0 then (if text.length > 0 then 1 else 0)
      else sentenceMatches
    let words := (splitRuns isWordChar text).map stripQuotes
    let freq := words.foldl (fun m w => bump m (w.map Char.toLower)) []
    let longestWord := words.foldl
      (fun best w => if best.length < w.length then w else best) []
    let sorted := sortByCountDesc freq
    { wordCount := words.length
      sentenceCount := sentenceCount
      paragraphCount := if paragraphs.length = 0 then 1 else paragraphs.length
      longestWord := ⟨longestWord⟩
      topNWords := (sorted.take 5).map fun q => (⟨q.1⟩, q.2)
      uniqueWords := (sortLex (freq.map Prod.fst)).map fun w => ⟨w⟩
      mostFrequentWord := sorted.head?.map fun q => (⟨q.1⟩, q.2) }

/-- Modelled from the spec: the in-process analyzer `analyzeText` of
src/utils/analyze.ts, whose source file is not part of the repository
snapshot (only its import sites and tests are).  Per the spec it is a
pure, deterministic function producing the documented zero-value result
on empty input and an `AnalysisResult` identical to the worker-side
analyzer for every input, so it is modelled by the same pipeline. -/
def analyzeText (content : String) : AnalysisResult :=
  let text := trimJS content.data
  if text.isEmpty then zeroAnalysis
  else
    let paragraphs := (splitParagraphs text).filter fun p => !(trimJS p).isEmpty
    let sentenceMatches := countSentenceMatches text
    let sentenceCount :=
      if sentenceMatches = 0 then (if text.length > 0 then 1 else 0)
      else sentenceMatches
    let words := (splitRuns isWordChar text).map stripQuotes
    let freq := words.foldl (fun m w => bump m (w.map Char.toLower)) []
    let longestWord := words.foldl
      (fun best w => if best.length < w.length then w else best) []
    let sorted := sortByCountDesc freq
    { wordCount := words.length
      sentenceCount := sentenceCount
      paragraphCount := if paragraphs.length = 0 then 1 else paragraphs.length
      longestWord := ⟨longestWord⟩
      topNWords := (sorted.take 5).map fun q => (⟨q.1⟩, q.2)
      uniqueWords := (sortLex (freq.map Prod.fst)).map fun w => ⟨w⟩
      mostFrequentWord := sorted.head?.map fun q => (⟨q.1⟩, q.2) }

/-! ## Worker pool (src/worker/pool.ts) -/

/-- An in-flight unit of work handed to the pool (`WorkerTask`; the
source formats the id as the string `task-<n>`, modelled by `n`). -/
structure WorkerTask where
  taskId : ℕ
  content : String
deriving DecidableEq, Repr

/-- One execution unit's bookkeeping record (`WorkerState`).  `alive`
tracks whether the underlying thread is running (`terminate()` kills
it); the source keeps no such field because it holds the thread object
itself. -/
structure WorkerState where
  busy : Bool
  taskId : Option ℕ
  alive : Bool
deriving DecidableEq, Repr

/-- The pool's mutable state. -/
structure PoolState where
  workers : List WorkerState
  taskQueue : List WorkerTask
  activeTasks : List (ℕ × WorkerTask)
  taskIdCounter : ℕ
  isShuttingDown : Bool
deriving DecidableEq, Repr

/-- Externally observable effects of pool operations: a task's
continuation resolving or rejecting, a message posted to a unit, a unit
terminated. -/
inductive PoolEvent where
  | rejected (taskId : ℕ) (message : String)
  | resolved (taskId : ℕ) (result : AnalysisResult)
  | posted (workerIndex : ℕ) (taskId : ℕ) (content : String)
  | terminated (workerIndex : ℕ)
deriving DecidableEq, Repr

namespace WorkerPool

/-- `processQueue()`: if a task is queued and an idle unit exists, pop the
head task, bind it to the first idle unit, record it in `activeTasks` and
post the message.  (The synchronous-post-failure catch never fires in
this model, where posting always succeeds.) -/
def processQueue (s : PoolState) : PoolState × List PoolEvent :=
  match s.taskQueue with
  | [] => (s, [])
  | t :: rest =>
    match s.workers.findIdx? (fun wk => !wk.busy) with
    | none => (s, [])
    | some i =>
      match s.workers[i]? with
      | none => (s, [])
      | some wk =>
        ({ s with
            workers := s.workers.set i { wk with busy := true, taskId := some t.taskId },
            taskQueue := rest,
            activeTasks := aset s.activeTasks t.taskId t },
         [.posted i t.taskId t.content])

/-- `analyzeText(content)`: reject immediately when shutting down;
otherwise allocate the next task id, push the task on the queue and run
the dispatch scan. -/
def analyzeTextCall (s : PoolState) (content : String) :
    Except String (PoolState × ℕ × List PoolEvent) :=
  if s.isShuttingDown then .error "Worker pool is shutting down"
  else
    let taskId := s.taskIdCounter + 1
    let t : WorkerTask := ⟨taskId, content⟩
    let s1 := { s with taskIdCounter := taskId, taskQueue := s.taskQueue ++ [t] }
    let r := processQueue s1
    .ok (r.1, taskId, r.2)

/-- The message a worker thread posts back for `{taskId, content}`
(src/worker/worker.ts): the analyzer is total, so the reply always
carries `success: true` with the analysis result. -/
structure WorkerReply where
  taskId : ℕ
  success : Bool
  result : Option AnalysisResult
  errMsg : Option String
deriving DecidableEq, Repr

/-- The worker thread's `message` handler. -/
def workerRespond (taskId : ℕ) (content : String) : WorkerReply :=
  ⟨taskId, true, some (workerAnalyzeText content), none⟩

/-- `handleWorkerMessage`: free the unit, look the task up by the reply's
taskId (an unknown id is logged and ignored), resolve or reject its
continuation, and re-run the dispatch scan. -/
def handleWorkerMessage (s : PoolState) (i : ℕ) (reply : WorkerReply) :
    PoolState × List PoolEvent :=
  let s1 :=
    match s.workers[i]? with
    | some wk => { s with workers := s.workers.set i { wk with busy := false, taskId := none } }
    | none => s
  match alookup s1.activeTasks reply.taskId with
  | none => (s1, [])
  | some t =>
    let s2 := { s1 with activeTasks := adel s1.activeTasks reply.taskId }
    let ev :=
      match reply.success, reply.result with
      | true, some r => [PoolEvent.resolved t.taskId r]
      | _, _ => [PoolEvent.rejected t.taskId (reply.errMsg.getD "Unknown worker error")]
    let r := processQueue s2
    (r.1, ev ++ r.2)

/-- `handleWorkerError`: reject only the task bound to the erroring unit
(if any), mark the unit idle again — it is not torn down — and re-run the
dispatch scan. -/
def handleWorkerError (s : PoolState) (i : ℕ) (message : String) :
    PoolState × List PoolEvent :=
  match s.workers[i]? with
  | none => (s, [])
  | some wk =>
    let rejected :=
      match wk.taskId with
      | some tid =>
        match alookup s.activeTasks tid with
        | some t => [PoolEvent.rejected t.taskId message]
        | none => []
      | none => []
    let s1 :=
      match wk.taskId with
      | some tid => { s with activeTasks := adel s.activeTasks tid }
      | none => s
    let s2 := { s1 with workers := s1.workers.set i { wk with busy := false, taskId := none } }
    let r := processQueue s2
    (r.1, rejected ++ r.2)

/-- `createWorker(index)`: the index argument is used only in log
messages — the freshly spawned unit's state is PUSHED onto the end of the
`workers` array. -/
def createWorker (s : PoolState) : PoolState :=
  { s with workers := s.workers ++ [⟨false, none, true⟩] }

/-- `restartWorker(index)`: terminate the unit recorded at `index` (its
state object stays in the array), `createWorker(index)`, then re-run the
dispatch scan. -/
def restartWorker (s : PoolState) (i : ℕ) : PoolState × List PoolEvent :=
  let s1 :=
    match s.workers[i]? with
    | some wk => { s with workers := s.workers.set i { wk with alive := false } }
    | none => s
  let s2 := createWorker s1
  let r := processQueue s2
  (r.1, PoolEvent.terminated i :: r.2)

/-- The `exit` listener: restart the unit unless the pool is shutting
down. -/
def onWorkerExit (s : PoolState) (i : ℕ) : PoolState × List PoolEvent :=
  if s.isShuttingDown then (s, []) else restartWorker s i

/-- `shutdown()`: a second call is a no-op; otherwise set the flag, reject
every queued then every in-flight task with the shutting-down error, then
terminate every unit and clear the pool state. -/
def shutdown (s : PoolState) : PoolState × List PoolEvent :=
  if s.isShuttingDown then (s, [])
  else
    let rejQ := s.taskQueue.map fun t =>
      PoolEvent.rejected t.taskId "Worker pool is shutting down"
    let rejA := s.activeTasks.map fun p =>
      PoolEvent.rejected p.1 "Worker pool is shutting down"
    let terms := (List.range s.workers.length).map PoolEvent.terminated
    (⟨[], [], [], s.taskIdCounter, true⟩, rejQ ++ rejA ++ terms)

/-- `getStats()` snapshot: `{poolSize, busyWorkers, queueLength,
isShuttingDown}`. -/
def getStats (s : PoolState) : ℕ × ℕ × ℕ × Bool :=
  (s.workers.length, (s.workers.filter (·.busy)).length,
    s.taskQueue.length, s.isShuttingDown)

/-- One full task round trip through the pool: submit, and if the task was
dispatched to a unit, deliver that unit's reply back through the
correlation table.  Returns every observable event. -/
def roundTrip (s : PoolState) (content : String) : Except String (List PoolEvent) :=
  match analyzeTextCall s content with
  | .error e => .error e
  | .ok (s1, _, ev) =>
    match ev with
    | [PoolEvent.posted i tid c] =>
      .ok (ev ++ (handleWorkerMessage s1 i (workerRespond tid c)).2)
    | _ => .ok ev

end WorkerPool

/-! ## Theorems -/

theorem alookup_aset_self {κ β : Type} [DecidableEq κ] (m : List (κ × β)) (k : κ) (v : β) :
    alookup (aset m k v) k = some v := by
  induction m with
  | nil => simp [aset, alookup]
  | cons p m ih =>
    obtain ⟨k1, v1⟩ := p
    by_cases h : k1 = k
    · simp [aset, alookup, h]
    · simp [aset, alookup, h, ih]

theorem alookup_aset_ne {κ β : Type} [DecidableEq κ] (m : List (κ × β)) (k k0 : κ) (v : β)
    (h : k ≠ k0) : alookup (aset m k v) k0 = alookup m k0 := by
  induction m with
  | nil => simp [aset, alookup, h]
  | cons p m ih =>
    obtain ⟨k1, v1⟩ := p
    by_cases hp : k1 = k
    · subst hp
      simp [aset, alookup, h]
    · by_cases hp0 : k1 = k0
      · subst hp0
        simp [aset, alookup, hp]
      · simp [aset, alookup, hp, hp0, ih]

theorem alookup_eq_none_of_not_mem {κ β : Type} [DecidableEq κ] (m : List (κ × β)) (k : κ)
    (h : k ∉ m.map Prod.fst) : alookup m k = none := by
  induction m with
  | nil => simp [alookup]
  | cons p m ih =>
    simp only [List.map_cons, List.mem_cons, not_or] at h
    simp only [alookup]
    rw [if_neg (fun he => h.1 he.symm)]
    exact ih h.2

theorem mem_keys_aset {κ β : Type} [DecidableEq κ] (m : List (κ × β)) (k k0 : κ) (v : β)
    (h : k0 ∈ (aset m k v).map Prod.fst) : k0 ∈ m.map Prod.fst ∨ k0 = k := by
  induction m with
  | nil =>
    simp only [aset, List.map_cons, List.map_nil, List.mem_singleton] at h
    exact Or.inr h
  | cons p m ih =>
    obtain ⟨k1, v1⟩ := p
    by_cases hp : k1 = k
    · simp only [aset, if_pos hp, List.map_cons, List.mem_cons] at h
      rcases h with h | h
      · exact Or.inr h
      · exact Or.inl (by simp [h])
    · simp only [aset, if_neg hp, List.map_cons, List.mem_cons] at h
      rcases h with h | h
      · exact Or.inl (by simp [h])
      · rcases ih h with h2 | h2
        · exact Or.inl (by simp [h2])
        · exact Or.inr h2

theorem aset_nodupKeys {κ β : Type} [DecidableEq κ] (m : List (κ × β)) (k : κ) (v : β)
    (h : nodupKeys m) : nodupKeys (aset m k v) := by
  induction m with
  | nil => simp [aset, nodupKeys]
  | cons p m ih =>
    obtain ⟨k1, v1⟩ := p
    unfold nodupKeys at h
    simp only [List.map_cons, List.nodup_cons] at h
    by_cases hp : k1 = k
    · subst hp
      have he : aset ((k1, v1) :: m) k1 v = (k1, v) :: m := by simp [aset]
      unfold nodupKeys
      rw [he]
      simp only [List.map_cons, List.nodup_cons]
      exact h
    · unfold nodupKeys
      simp only [aset, if_neg hp, List.map_cons, List.nodup_cons]
      refine ⟨fun hmem => ?_, ih h.2⟩
      rcases mem_keys_aset m k k1 v hmem with h2 | h2
      · exact h.1 h2
      · exact hp h2

theorem alookup_adel_self {κ β : Type} [DecidableEq κ] (m : List (κ × β)) (k : κ)
    (h : nodupKeys m) : alookup (adel m k) k = none := by
  induction m with
  | nil => simp [adel, alookup]
  | cons p m ih =>
    obtain ⟨k1, v1⟩ := p
    unfold nodupKeys at h
    simp only [List.map_cons, List.nodup_cons] at h
    by_cases hp : k1 = k
    · simp only [adel, if_pos hp]
      exact alookup_eq_none_of_not_mem m k (hp ▸ h.1)
    · simp only [adel, if_neg hp, alookup, if_neg hp]
      exact ih h.2

/-- C1: for every key, value and TTL and both strategies, `set` then `get`
before the TTL elapses returns the value; a `get` strictly after the TTL
has elapsed returns absent and deletes the backing map entry / file at
that moment. -/
theorem c1_ttl_set_get_evict {α : Type} (m : Mem α) (fs : FileSys α)
    (k : String) (v : α) (t n0 n1 : ℕ) (hm : nodupKeys m) (hfs : nodupKeys fs) :
    (n1 < n0 + t →
      (InMemoryCache.get (InMemoryCache.set m k v t n0) k n1).1 = some v ∧
      (FileBasedCache.get (FileBasedCache.set fs k v t n0) k n1).1 = some v) ∧
    (n1 > n0 + t →
      (InMemoryCache.get (InMemoryCache.set m k v t n0) k n1).1 = none ∧
      alookup (InMemoryCache.get (InMemoryCache.set m k v t n0) k n1).2 k = none ∧
      (FileBasedCache.get (FileBasedCache.set fs k v t n0) k n1).1 = none ∧
      alookup (FileBasedCache.get (FileBasedCache.set fs k v t n0) k n1).2
        (FileBasedCache.getFilePath k) = none) := by
  have hmem : alookup (InMemoryCache.set m k v t n0) k = some ⟨v, n0 + t⟩ :=
    alookup_aset_self m k ⟨v, n0 + t⟩
  have hfile : alookup (FileBasedCache.set fs k v t n0) (FileBasedCache.getFilePath k) =
      some (.entry k v (n0 + t)) :=
    alookup_aset_self fs (FileBasedCache.getFilePath k) (.entry k v (n0 + t))
  constructor
  · intro hlt
    have hnot : ¬ n1 > n0 + t := by omega
    constructor
    · simp [InMemoryCache.get, hmem, hnot]
    · simp [FileBasedCache.get, hfile, hnot]
  · intro hgt
    refine ⟨?_, ?_, ?_, ?_⟩
    · simp [InMemoryCache.get, hmem, hgt]
    · simp only [InMemoryCache.get, hmem, if_pos hgt]
      exact alookup_adel_self _ k (aset_nodupKeys m k _ hm)
    · simp [FileBasedCache.get, hfile, hgt]
    · simp only [FileBasedCache.get, hfile, if_pos hgt]
      exact alookup_adel_self _ _ (aset_nodupKeys fs _ _ hfs)

/-- C1 witness: concrete instantiation, read at 150ms of an entry set at
0ms with a 100ms TTL. -/
theorem c1_ttl_set_get_evict_witness :
    (150 < 0 + 100 →
      (InMemoryCache.get (InMemoryCache.set ([] : Mem ℕ) "k" 7 100 0) "k" 150).1 = some 7 ∧
      (FileBasedCache.get (FileBasedCache.set ([] : FileSys ℕ) "k" 7 100 0) "k" 150).1 = some 7) ∧
    (150 > 0 + 100 →
      (InMemoryCache.get (InMemoryCache.set ([] : Mem ℕ) "k" 7 100 0) "k" 150).1 = none ∧
      alookup (InMemoryCache.get (InMemoryCache.set ([] : Mem ℕ) "k" 7 100 0) "k" 150).2 "k" = none ∧
      (FileBasedCache.get (FileBasedCache.set ([] : FileSys ℕ) "k" 7 100 0) "k" 150).1 = none ∧
      alookup (FileBasedCache.get (FileBasedCache.set ([] : FileSys ℕ) "k" 7 100 0) "k" 150).2
        (FileBasedCache.getFilePath "k") = none) :=
  c1_ttl_set_get_evict ([] : Mem ℕ) ([] : FileSys ℕ) "k" 7 100 0 150
    (by decide) (by decide)

/-- C2 counterexample: analysis succeeds but the cache set recording the
`completed` status throws; the job is NOT treated as completed — it goes
to the retry path with `processed` unchanged. -/
theorem c2_counterexample :
    ¬ ((JobQueue.processNext ⟨"j", 0⟩ ⟨true, true, false, true, true⟩).outcome = .completed ∧
       (JobQueue.processNext ⟨"j", 0⟩ ⟨true, true, false, true, true⟩).processedInc = 1) := by
  decide

/-- C2 (amended): a durable-store write failure after a successful
analysis is swallowed — the job still completes with `processed`
incremented and no retry; a failure of the cache set recording the
`completed` (or `processing`) status instead sends the job to the
catch path; and a cache-write failure while recording the terminal
`failed` status is swallowed — the job is still marked failed and
`processNext` returns normally (the queue does not crash). -/
theorem c2_cache_write_failure_handling (j : Job) (env : ProcEnv) :
    (env.processingSetOk ∧ env.analysisOk ∧ env.completedSetOk →
      (JobQueue.processNext j env).outcome = .completed ∧
      (JobQueue.processNext j env).processedInc = 1 ∧
      (JobQueue.processNext j env).retriedInc = 0 ∧
      (JobQueue.processNext j env).pendingRetriesInc = 0) ∧
    (¬ (env.processingSetOk ∧ env.analysisOk ∧ env.completedSetOk) →
      j.attempts + 1 > 3 →
      (JobQueue.processNext j env).outcome = .markedFailed ∧
      (JobQueue.processNext j env).failedInc = 1) := by
  constructor
  · intro h
    simp [JobQueue.processNext, h]
  · intro h hgt
    have hle : ¬ (j.attempts + 1 ≤ 3) := by omega
    simp [JobQueue.processNext, h, hle]

/-- C2 witness: store write fails (`storeOk = false`) yet the job
completes. -/
theorem c2_cache_write_failure_handling_witness :
    ((true : Bool) ∧ (true : Bool) ∧ (true : Bool) →
      (JobQueue.processNext ⟨"j", 0⟩ ⟨true, true, true, false, true⟩).outcome = .completed ∧
      (JobQueue.processNext ⟨"j", 0⟩ ⟨true, true, true, false, true⟩).processedInc = 1 ∧
      (JobQueue.processNext ⟨"j", 0⟩ ⟨true, true, true, false, true⟩).retriedInc = 0 ∧
      (JobQueue.processNext ⟨"j", 0⟩ ⟨true, true, true, false, true⟩).pendingRetriesInc = 0) ∧
    (¬ ((true : Bool) ∧ (true : Bool) ∧ (true : Bool)) →
      (0 : ℕ) + 1 > 3 →
      (JobQueue.processNext ⟨"j", 0⟩ ⟨true, true, true, false, true⟩).outcome = .markedFailed ∧
      (JobQueue.processNext ⟨"j", 0⟩ ⟨true, true, true, false, true⟩).failedInc = 1) :=
  c2_cache_write_failure_handling ⟨"j", 0⟩ ⟨true, true, true, false, true⟩

/-- C3: on a failed attempt the same job object (same `jobId`) is
rescheduled with backoff `500 × 2^(attempts−1)` and the retried counter
(and pending-retry counter) is incremented at schedule time while
`attempts ≤ 3`, and the job is marked failed once `attempts` exceeds 3;
a job failing on every attempt yields exactly the backoffs
500/1000/2000ms, 3 retries and 1 terminal failure. -/
theorem c3_retry_policy (j : Job) (env : ProcEnv)
    (hfail : ¬ (env.processingSetOk ∧ env.analysisOk ∧ env.completedSetOk)) :
    ((JobQueue.processNext j env).job.jobId = j.jobId) ∧
    (j.attempts + 1 ≤ 3 →
      (JobQueue.processNext j env).outcome = .retryScheduled (500 * 2 ^ j.attempts) ∧
      (JobQueue.processNext j env).retriedInc = 1 ∧
      (JobQueue.processNext j env).pendingRetriesInc = 1 ∧
      (JobQueue.processNext j env).failedInc = 0) ∧
    (j.attempts + 1 > 3 →
      (JobQueue.processNext j env).outcome = .markedFailed ∧
      (JobQueue.processNext j env).failedInc = 1 ∧
      (JobQueue.processNext j env).retriedInc = 0) ∧
    ((JobQueue.runAttempts ⟨true, true, false, true, true⟩ ⟨j.jobId, 0⟩ 10).map
        ProcResult.outcome =
      [.retryScheduled 500, .retryScheduled 1000, .retryScheduled 2000, .markedFailed] ∧
     ((JobQueue.runAttempts ⟨true, true, false, true, true⟩ ⟨j.jobId, 0⟩ 10).map
        ProcResult.retriedInc).sum = 3 ∧
     ((JobQueue.runAttempts ⟨true, true, false, true, true⟩ ⟨j.jobId, 0⟩ 10).map
        ProcResult.failedInc).sum = 1 ∧
     ∀ r ∈ JobQueue.runAttempts ⟨true, true, false, true, true⟩ ⟨j.jobId, 0⟩ 10,
       r.job.jobId = j.jobId) := by
  refine ⟨?_, ?_, ?_, ?_⟩
  · by_cases h : env.processingSetOk ∧ env.analysisOk ∧ env.completedSetOk
    · simp [JobQueue.processNext, h]
    · by_cases hle : j.attempts + 1 ≤ 3 <;> simp [JobQueue.processNext, h, hle]
  · intro hle
    simp [JobQueue.processNext, hfail, hle]
  · intro hgt
    have hle : ¬ (j.attempts + 1 ≤ 3) := by omega
    simp [JobQueue.processNext, hfail, hle]
  · refine ⟨?_, ?_, ?_, ?_⟩ <;>
      simp [JobQueue.runAttempts, JobQueue.processNext]

/-- C3 witness: concrete job and always-failing environment. -/
theorem c3_retry_policy_witness :
    ((JobQueue.processNext ⟨"job-1", 0⟩ ⟨true, false, true, true, true⟩).job.jobId = "job-1") ∧
    ((0 : ℕ) + 1 ≤ 3 →
      (JobQueue.processNext ⟨"job-1", 0⟩ ⟨true, false, true, true, true⟩).outcome =
        .retryScheduled (500 * 2 ^ (0 : ℕ)) ∧
      (JobQueue.processNext ⟨"job-1", 0⟩ ⟨true, false, true, true, true⟩).retriedInc = 1 ∧
      (JobQueue.processNext ⟨"job-1", 0⟩ ⟨true, false, true, true, true⟩).pendingRetriesInc = 1 ∧
      (JobQueue.processNext ⟨"job-1", 0⟩ ⟨true, false, true, true, true⟩).failedInc = 0) ∧
    ((0 : ℕ) + 1 > 3 →
      (JobQueue.processNext ⟨"job-1", 0⟩ ⟨true, false, true, true, true⟩).outcome = .markedFailed ∧
      (JobQueue.processNext ⟨"job-1", 0⟩ ⟨true, false, true, true, true⟩).failedInc = 1 ∧
      (JobQueue.processNext ⟨"job-1", 0⟩ ⟨true, false, true, true, true⟩).retriedInc = 0) ∧
    ((JobQueue.runAttempts ⟨true, true, false, true, true⟩ ⟨"job-1", 0⟩ 10).map
        ProcResult.outcome =
      [.retryScheduled 500, .retryScheduled 1000, .retryScheduled 2000, .markedFailed] ∧
     ((JobQueue.runAttempts ⟨true, true, false, true, true⟩ ⟨"job-1", 0⟩ 10).map
        ProcResult.retriedInc).sum = 3 ∧
     ((JobQueue.runAttempts ⟨true, true, false, true, true⟩ ⟨"job-1", 0⟩ 10).map
        ProcResult.failedInc).sum = 1 ∧
     ∀ r ∈ JobQueue.runAttempts ⟨true, true, false, true, true⟩ ⟨"job-1", 0⟩ 10,
       r.job.jobId = "job-1") :=
  c3_retry_policy ⟨"job-1", 0⟩ ⟨true, false, true, true, true⟩ (by decide)

namespace JobQueue

theorem shutdownPollsGo_spec (pending : ℕ → Bool) (timeoutMs fuel : ℕ) :
    ∀ k, timeoutMs ≤ 25 * (k + fuel) →
      k ≤ shutdownPollsGo pending timeoutMs k fuel ∧
      ¬ (pending (shutdownPollsGo pending timeoutMs k fuel) = true ∧
         25 * shutdownPollsGo pending timeoutMs k fuel < timeoutMs) ∧
      ∀ j, k ≤ j → j < shutdownPollsGo pending timeoutMs k fuel →
        pending j = true ∧ 25 * j < timeoutMs := by
  induction fuel with
  | zero =>
    intro k h
    simp only [shutdownPollsGo]
    refine ⟨le_refl k, ?_, ?_⟩
    · rintro ⟨-, hlt⟩
      omega
    · intro j hkj hjk
      omega
  | succ fuel ih =>
    intro k h
    simp only [shutdownPollsGo]
    by_cases hc : pending k = true ∧ 25 * k < timeoutMs
    · rw [if_pos hc]
      obtain ⟨hle, hexit, hall⟩ := ih (k + 1) (by omega)
      refine ⟨by omega, hexit, ?_⟩
      intro j hkj hjr
      by_cases hjk : j = k
      · subst hjk
        exact hc
      · exact hall j (by omega) hjr
    · rw [if_neg hc]
      exact ⟨le_refl k, hc, fun j hkj hjk => absurd hjk (by omega)⟩

theorem shutdownPolls_spec (pending : ℕ → Bool) (timeoutMs : ℕ) :
    ¬ (pending (shutdownPolls pending timeoutMs) = true ∧
       25 * shutdownPolls pending timeoutMs < timeoutMs) ∧
    ∀ j, j < shutdownPolls pending timeoutMs →
      pending j = true ∧ 25 * j < timeoutMs := by
  have h := shutdownPollsGo_spec pending timeoutMs (timeoutMs / 25 + 1) 0 (by omega)
  exact ⟨h.2.1, fun j hj => h.2.2 j (Nat.zero_le j) hj⟩

end JobQueue

/-- C4 counterexample: with `timeoutMs = 30` (not a multiple of the 25ms
poll interval) and work that never drains, `shutdown` blocks for 50ms
before stopping dispatch — longer than `timeoutMs`. -/
theorem c4_counterexample :
    (JobQueue.shutdown true true (fun _ => true) 30).blockedMs = 50 ∧
    ¬ (JobQueue.shutdown true true (fun _ => true) 30).blockedMs ≤ 30 := by
  constructor
  · rfl
  · intro h
    have : (JobQueue.shutdown true true (fun _ => true) 30).blockedMs = 50 := rfl
    omega

/-- C4 (amended): on a running queue, `shutdown(timeoutMs)` polls every
25ms and exits the wait exactly when the work has drained or the elapsed
time reaches `timeoutMs`, whichever comes first at poll granularity; it
blocks strictly less than `timeoutMs + 25` ms (and at most `timeoutMs`
when `timeoutMs` is a multiple of the 25ms poll interval) before stopping
dispatch; residual work at timeout is reported, never destroyed; and the
dependent worker pool is shut down before returning, timeout or not. -/
theorem c4_shutdown_drain (hasPool : Bool) (pending : ℕ → Bool) (timeoutMs : ℕ) :
    (JobQueue.shutdown true hasPool pending timeoutMs).blockedMs < timeoutMs + 25 ∧
    (25 ∣ timeoutMs →
      (JobQueue.shutdown true hasPool pending timeoutMs).blockedMs ≤ timeoutMs) ∧
    (¬ (pending ((JobQueue.shutdown true hasPool pending timeoutMs).blockedMs / 25) = true ∧
        (JobQueue.shutdown true hasPool pending timeoutMs).blockedMs < timeoutMs)) ∧
    (∀ j, 25 * j < (JobQueue.shutdown true hasPool pending timeoutMs).blockedMs →
      pending j = true ∧ 25 * j < timeoutMs) ∧
    (JobQueue.shutdown true hasPool pending timeoutMs).runningAfter = false ∧
    (JobQueue.shutdown true hasPool pending timeoutMs).residualReported =
      pending ((JobQueue.shutdown true hasPool pending timeoutMs).blockedMs / 25) ∧
    (JobQueue.shutdown true hasPool pending timeoutMs).stateDestroyed = false ∧
    (JobQueue.shutdown true hasPool pending timeoutMs).poolShutdownCalled = hasPool := by
  obtain ⟨hexit, hall⟩ := JobQueue.shutdownPolls_spec pending timeoutMs
  have hshut : JobQueue.shutdown true hasPool pending timeoutMs =
      { blockedMs := 25 * JobQueue.shutdownPolls pending timeoutMs,
        runningAfter := false,
        residualReported := pending (JobQueue.shutdownPolls pending timeoutMs),
        stateDestroyed := false, poolShutdownCalled := hasPool } := by
    simp [JobQueue.shutdown]
  rw [hshut]
  simp only [Nat.mul_div_cancel_left _ (by norm_num : (0:ℕ) < 25)]
  refine ⟨?_, ?_, hexit, ?_, trivial, trivial, trivial, trivial⟩
  · by_cases hz : JobQueue.shutdownPolls pending timeoutMs = 0
    · omega
    · have := (hall (JobQueue.shutdownPolls pending timeoutMs - 1) (by omega)).2
      omega
  · intro hdvd
    by_cases hz : JobQueue.shutdownPolls pending timeoutMs = 0
    · omega
    · have := (hall (JobQueue.shutdownPolls pending timeoutMs - 1) (by omega)).2
      obtain ⟨c, hc⟩ := hdvd
      omega
  · intro j hj
    exact hall j (by omega)

/-- C4 witness: pool present, work drains after the first poll,
`timeoutMs = 100`. -/
theorem c4_shutdown_drain_witness :
    (JobQueue.shutdown true true (fun k => decide (k < 1)) 100).blockedMs < 100 + 25 ∧
    (25 ∣ 100 →
      (JobQueue.shutdown true true (fun k => decide (k < 1)) 100).blockedMs ≤ 100) ∧
    (¬ ((fun k => decide (k < 1))
          ((JobQueue.shutdown true true (fun k => decide (k < 1)) 100).blockedMs / 25) = true ∧
        (JobQueue.shutdown true true (fun k => decide (k < 1)) 100).blockedMs < 100)) ∧
    (∀ j, 25 * j < (JobQueue.shutdown true true (fun k => decide (k < 1)) 100).blockedMs →
      (fun k => decide (k < 1)) j = true ∧ 25 * j < 100) ∧
    (JobQueue.shutdown true true (fun k => decide (k < 1)) 100).runningAfter = false ∧
    (JobQueue.shutdown true true (fun k => decide (k < 1)) 100).residualReported =
      (fun k => decide (k < 1))
        ((JobQueue.shutdown true true (fun k => decide (k < 1)) 100).blockedMs / 25) ∧
    (JobQueue.shutdown true true (fun k => decide (k < 1)) 100).stateDestroyed = false ∧
    (JobQueue.shutdown true true (fun k => decide (k < 1)) 100).poolShutdownCalled = true :=
  c4_shutdown_drain true (fun k => decide (k < 1)) 100

theorem migrateLoop_spec {α : Type} (ok : ℕ → Bool) (es : List (CacheEntry α)) :
    ∀ i, (migrateLoop ok es i).2 = (migrateLoop ok es i).1.length ∧
      (migrateLoop ok es i).1 =
        ((es.enumFrom i).filter fun p => ok p.1).map Prod.snd := by
  induction es with
  | nil => intro i; simp [migrateLoop]
  | cons e es ih =>
    intro i
    obtain ⟨h1, h2⟩ := ih (i + 1)
    by_cases hok : ok i = true
    · simp [migrateLoop, List.enumFrom, hok, h1, h2]
    · simp [migrateLoop, List.enumFrom, hok, h1, h2]

theorem migrateLoop_all_ok {α : Type} (ok : ℕ → Bool) (es : List (CacheEntry α))
    (h : ∀ i, ok i = true) : ∀ i, (migrateLoop ok es i).1 = es := by
  induction es with
  | nil => intro i; simp [migrateLoop]
  | cons e es ih => intro i; simp [migrateLoop, h i, ih]

theorem migrateLoop_sublist {α : Type} (ok : ℕ → Bool) (es : List (CacheEntry α)) :
    ∀ i, (migrateLoop ok es i).1.Sublist es := by
  induction es with
  | nil => intro i; simp [migrateLoop]
  | cons e es ih =>
    intro i
    by_cases hok : ok i = true
    · simpa [migrateLoop, hok] using (ih (i + 1)).cons₂ e
    · simpa [migrateLoop, hok] using (ih (i + 1)).cons e

/-- C5 counterexample: the in-memory current cache holds key "a" (value 5)
and a stale unexpired file for "a" (value 7) sits in the cache directory;
after an invalidate-mode switch to the file strategy, reading the
pre-switch-readable key returns the stale value 7 instead of absent —
`new FileBasedCache()` does not start empty. -/
theorem c5_counterexample :
    (Sys.get (⟨.mem [("a", ⟨5, 100⟩)], [("a", .entry "a" 7 100)]⟩ : Sys ℕ) "a" 0).1 =
      some 5 ∧
    (Sys.get (switchInvalidate
        (⟨.mem [("a", ⟨5, 100⟩)], [("a", .entry "a" 7 100)]⟩ : Sys ℕ) .file) "a" 0).1 =
      some 7 := by
  decide

/-- C5 (amended): after an invalidate-mode switch the old cache is cleared
and a newly constructed instance is published; every pre-switch-readable
key then reads absent, provided the new instance's backing store holds
nothing readable for it — automatic when the target is the in-memory
strategy or the old cache was the file-based one (its `clear()` empties
the shared directory), and true for a memory→file switch exactly when no
stale file for the key is readable in the cache directory. -/
theorem c5_invalidate_switch {α : Type} (s : Sys α) (target : Strategy)
    (k : String) (now : ℕ) (v : α)
    (hpre : (Sys.get s k now).1 = some v)
    (hclean : target = Strategy.inmemory ∨ s.current.isFile = true ∨
      (FileBasedCache.get s.dir k now).1 = none) :
    (Sys.get (switchInvalidate s target) k now).1 = none := by
  obtain ⟨cur, dir⟩ := s
  cases target with
  | inmemory =>
    cases cur <;> simp [switchInvalidate, Sys.get, InMemoryCache.get, alookup]
  | file =>
    rcases hclean with h | h | h
    · exact absurd h (by simp)
    · cases cur with
      | mem m => simp [CacheInst.isFile] at h
      | file =>
        simp [switchInvalidate, Sys.get, FileBasedCache.clear,
          FileBasedCache.get, alookup]
    · cases cur with
      | mem m => simpa [switchInvalidate, Sys.get] using h
      | file =>
        simp [switchInvalidate, Sys.get, FileBasedCache.clear,
          FileBasedCache.get, alookup]

/-- C5 witness: memory→file invalidate switch with an empty cache
directory. -/
theorem c5_invalidate_switch_witness :
    (Sys.get (switchInvalidate (⟨.mem [("a", ⟨5, 100⟩)], []⟩ : Sys ℕ) .file) "a" 0).1 =
      none :=
  c5_invalidate_switch (⟨.mem [("a", ⟨5, 100⟩)], []⟩ : Sys ℕ) .file "a" 0 5
    (by decide) (Or.inr (Or.inr (by decide)))

/-- C6: migration writes exactly the old cache's unexpired entries whose
write succeeded, verbatim and in order, and reports their number; the
enumeration yields every unexpired entry with its value unchanged and TTL
equal to the strictly-positive remaining lifetime, never exceeding the
originally granted TTL; corrupted records are skipped without aborting. -/
theorem c6_migrate_best_effort {α : Type} (m : Mem α) (fs : FileSys α)
    (now : ℕ) (ok : ℕ → Bool) (entries : List (CacheEntry α)) :
    ((migrateCache entries ok).2 = (migrateCache entries ok).1.length) ∧
    ((migrateCache entries ok).1 =
      ((entries.enumFrom 0).filter fun p => ok p.1).map Prod.snd) ∧
    ((migrateCache entries ok).1.Sublist entries) ∧
    ((∀ i, ok i = true) → (migrateCache entries ok).1 = entries) ∧
    (∀ p ∈ m, now < p.2.expiresAt →
      (⟨p.1, p.2.value, p.2.expiresAt - now⟩ : CacheEntry α) ∈
        InMemoryCache.getAllEntries m now) ∧
    (∀ e ∈ InMemoryCache.getAllEntries m now, 0 < e.ttlMs ∧
      ∃ p, p ∈ m ∧ e.key = p.1 ∧ e.value = p.2.value ∧
        now < p.2.expiresAt ∧ e.ttlMs = p.2.expiresAt - now ∧
        ∀ n0 t, p.2.expiresAt = n0 + t → n0 ≤ now → e.ttlMs ≤ t) ∧
    (FileBasedCache.getAllEntries fs now =
      FileBasedCache.getAllEntries (fs.filter fun p => !p.2.isCorrupt) now) ∧
    (∀ e ∈ FileBasedCache.getAllEntries fs now, 0 < e.ttlMs) ∧
    (∀ p ∈ fs, ∀ k v exp, p.2 = FileData.entry k v exp → now < exp →
      (⟨if k = "" then FileBasedCache.reconstructKeyFromFilename p.1 else k, v,
        exp - now⟩ : CacheEntry α) ∈ FileBasedCache.getAllEntries fs now) ∧
    (∀ e ∈ FileBasedCache.getAllEntries fs now,
      ∃ p, p ∈ fs ∧ ∃ k v exp, p.2 = FileData.entry k v exp ∧
        e.key = (if k = "" then FileBasedCache.reconstructKeyFromFilename p.1 else k) ∧
        e.value = v ∧ now < exp ∧ e.ttlMs = exp - now ∧
        ∀ n0 t, exp = n0 + t → n0 ≤ now → e.ttlMs ≤ t) := by
  refine ⟨(migrateLoop_spec ok entries 0).1, (migrateLoop_spec ok entries 0).2,
    migrateLoop_sublist ok entries 0, fun h => migrateLoop_all_ok ok entries h 0,
    ?_, ?_, ?_, ?_, ?_, ?_⟩
  · intro p hp h
    simp only [InMemoryCache.getAllEntries, List.mem_filterMap]
    exact ⟨p, hp, by simp [h]⟩
  · intro e he
    simp only [InMemoryCache.getAllEntries, List.mem_filterMap] at he
    obtain ⟨p, hp, hf⟩ := he
    by_cases h : p.2.expiresAt > now
    · rw [if_pos h] at hf
      obtain rfl := Option.some_injective _ hf
      refine ⟨?_, p, hp, rfl, rfl, h, rfl, ?_⟩
      · show 0 < p.2.expiresAt - now
        omega
      · intro n0 t het hn0
        show p.2.expiresAt - now ≤ t
        omega
    · rw [if_neg h] at hf
      exact absurd hf (by simp)
  · induction fs with
    | nil => rfl
    | cons p fs ih =>
      obtain ⟨name, d⟩ := p
      cases d with
      | corrupt =>
        simpa [FileBasedCache.getAllEntries, FileBasedCache.readEntry,
          FileData.isCorrupt] using ih
      | entry k v ex =>
        by_cases he : ex > now
        · simpa [FileBasedCache.getAllEntries, FileBasedCache.readEntry,
            FileData.isCorrupt, he] using ih
        · simpa [FileBasedCache.getAllEntries, FileBasedCache.readEntry,
            FileData.isCorrupt, he] using ih
  · intro e he
    simp only [FileBasedCache.getAllEntries, List.mem_filterMap] at he
    obtain ⟨p, hp, hf⟩ := he
    obtain ⟨name, d⟩ := p
    cases d with
    | corrupt => exact absurd hf (by simp [FileBasedCache.readEntry])
    | entry k v ex =>
      simp only [FileBasedCache.readEntry] at hf
      by_cases h : ex > now
      · rw [if_pos h] at hf
        obtain rfl := Option.some_injective _ hf
        show 0 < ex - now
        omega
      · rw [if_neg h] at hf
        exact absurd hf (by simp)
  · intro p hp k v exp hpe hlt
    simp only [FileBasedCache.getAllEntries, List.mem_filterMap]
    refine ⟨p, hp, ?_⟩
    simp [FileBasedCache.readEntry, hpe, hlt]
  · intro e he
    simp only [FileBasedCache.getAllEntries, List.mem_filterMap] at he
    obtain ⟨p, hp, hf⟩ := he
    obtain ⟨name, d⟩ := p
    cases d with
    | corrupt => exact absurd hf (by simp [FileBasedCache.readEntry])
    | entry k v ex =>
      simp only [FileBasedCache.readEntry] at hf
      by_cases h : ex > now
      · rw [if_pos h] at hf
        obtain rfl := Option.some_injective _ hf
        refine ⟨(name, .entry k v ex), hp, k, v, ex, rfl, rfl, rfl, h, rfl, ?_⟩
        intro n0 t het hn0
        show ex - now ≤ t
        omega
      · rw [if_neg h] at hf
        exact absurd hf (by simp)

/-- C6 witness: two entries with the second write failing, one unexpired
and one expired map entry, a corrupted file alongside a good one. -/
theorem c6_migrate_best_effort_witness :
    (((migrateCache [⟨"a", 1, 50⟩, ⟨"b", 2, 60⟩] fun i => decide (i = 0)).2 =
      (migrateCache [⟨"a", 1, 50⟩, ⟨"b", 2, 60⟩] fun i => decide (i = 0)).1.length) ∧
    ((migrateCache [⟨"a", 1, 50⟩, ⟨"b", 2, 60⟩] fun i => decide (i = 0)).1 =
      ((([⟨"a", 1, 50⟩, ⟨"b", 2, 60⟩] : List (CacheEntry ℕ)).enumFrom 0).filter
        fun p => decide (p.1 = 0)).map Prod.snd) ∧
    ((migrateCache [⟨"a", 1, 50⟩, ⟨"b", 2, 60⟩] fun i => decide (i = 0)).1.Sublist
      [⟨"a", 1, 50⟩, ⟨"b", 2, 60⟩]) ∧
    ((∀ i, decide (i = 0) = true) →
      (migrateCache [⟨"a", 1, 50⟩, ⟨"b", 2, 60⟩] fun i => decide (i = 0)).1 =
        [⟨"a", 1, 50⟩, ⟨"b", 2, 60⟩]) ∧
    (∀ p ∈ ([("k", ⟨3, 5000⟩), ("old", ⟨4, 1000⟩)] : Mem ℕ), 2000 < p.2.expiresAt →
      (⟨p.1, p.2.value, p.2.expiresAt - 2000⟩ : CacheEntry ℕ) ∈
        InMemoryCache.getAllEntries [("k", ⟨3, 5000⟩), ("old", ⟨4, 1000⟩)] 2000) ∧
    (∀ e ∈ InMemoryCache.getAllEntries [("k", ⟨3, 5000⟩), ("old", ⟨4, 1000⟩)] 2000,
      0 < e.ttlMs ∧
      ∃ p, p ∈ ([("k", ⟨3, 5000⟩), ("old", ⟨4, 1000⟩)] : Mem ℕ) ∧ e.key = p.1 ∧
        e.value = p.2.value ∧ 2000 < p.2.expiresAt ∧
        e.ttlMs = p.2.expiresAt - 2000 ∧
        ∀ n0 t, p.2.expiresAt = n0 + t → n0 ≤ 2000 → e.ttlMs ≤ t) ∧
    (FileBasedCache.getAllEntries
        ([("bad", .corrupt), ("g", .entry "g" 9 4000)] : FileSys ℕ) 2000 =
      FileBasedCache.getAllEntries
        (([("bad", .corrupt), ("g", .entry "g" 9 4000)] : FileSys ℕ).filter
          fun p => !p.2.isCorrupt) 2000) ∧
    (∀ e ∈ FileBasedCache.getAllEntries
        ([("bad", .corrupt), ("g", .entry "g" 9 4000)] : FileSys ℕ) 2000,
      0 < e.ttlMs) ∧
    (∀ p ∈ ([("bad", .corrupt), ("g", .entry "g" 9 4000)] : FileSys ℕ),
      ∀ k v exp, p.2 = FileData.entry k v exp → 2000 < exp →
        (⟨if k = "" then FileBasedCache.reconstructKeyFromFilename p.1 else k, v,
          exp - 2000⟩ : CacheEntry ℕ) ∈
          FileBasedCache.getAllEntries
            [("bad", .corrupt), ("g", .entry "g" 9 4000)] 2000) ∧
    (∀ e ∈ FileBasedCache.getAllEntries
        ([("bad", .corrupt), ("g", .entry "g" 9 4000)] : FileSys ℕ) 2000,
      ∃ p, p ∈ ([("bad", .corrupt), ("g", .entry "g" 9 4000)] : FileSys ℕ) ∧
        ∃ k v exp, p.2 = FileData.entry k v exp ∧
          e.key = (if k = "" then FileBasedCache.reconstructKeyFromFilename p.1 else k) ∧
          e.value = v ∧ 2000 < exp ∧ e.ttlMs = exp - 2000 ∧
          ∀ n0 t, exp = n0 + t → n0 ≤ 2000 → e.ttlMs ≤ t)) :=
  c6_migrate_best_effort [("k", ⟨3, 5000⟩), ("old", ⟨4, 1000⟩)]
    [("bad", .corrupt), ("g", .entry "g" 9 4000)] 2000
    (fun i => decide (i = 0)) [⟨"a", 1, 50⟩, ⟨"b", 2, 60⟩]

theorem alookup_memSetAll_not_mem {α : Type} (pairs : List (String × α))
    (T now : ℕ) : ∀ (m : Mem α) (k : String), k ∉ pairs.map Prod.fst →
      alookup (InMemoryCache.setAll m pairs T now) k = alookup m k := by
  induction pairs with
  | nil => intro m k _; rfl
  | cons q rest ih =>
    intro m k h
    simp only [List.map_cons, List.mem_cons, not_or] at h
    show alookup (InMemoryCache.setAll (InMemoryCache.set m q.1 q.2 T now) rest T now) k =
      alookup m k
    rw [ih _ k h.2]
    exact alookup_aset_ne m q.1 k _ (fun he => h.1 he.symm)

theorem alookup_memSetAll_mem {α : Type} (pairs : List (String × α)) (T now : ℕ) :
    ∀ m : Mem α, (pairs.map Prod.fst).Nodup → ∀ k v, (k, v) ∈ pairs →
      alookup (InMemoryCache.setAll m pairs T now) k = some ⟨v, now + T⟩ := by
  induction pairs with
  | nil => intro m _ k v h; exact absurd h (List.not_mem_nil _)
  | cons q rest ih =>
    intro m hnd k v hmem
    simp only [List.map_cons, List.nodup_cons] at hnd
    rcases List.mem_cons.1 hmem with h0 | h0
    · obtain rfl : q = (k, v) := h0.symm
      show alookup (InMemoryCache.setAll (InMemoryCache.set m k v T now) rest T now) k =
        some ⟨v, now + T⟩
      rw [alookup_memSetAll_not_mem rest T now _ k hnd.1]
      exact alookup_aset_self m k _
    · exact ih _ hnd.2 k v h0

theorem alookup_fileSetAll_not_mem {α : Type} (pairs : List (String × α))
    (T now : ℕ) :
    ∀ (fs : FileSys α) (q : String),
      q ∉ pairs.map (fun p => FileBasedCache.getFilePath p.1) →
      alookup (FileBasedCache.setAll fs pairs T now) q = alookup fs q := by
  induction pairs with
  | nil => intro fs q _; rfl
  | cons e rest ih =>
    intro fs q h
    simp only [List.map_cons, List.mem_cons, not_or] at h
    show alookup (FileBasedCache.setAll (FileBasedCache.set fs e.1 e.2 T now) rest T now) q =
      alookup fs q
    rw [ih _ q h.2]
    exact alookup_aset_ne fs _ q _ (fun he => h.1 he.symm)

theorem alookup_fileSetAll_mem {α : Type} (pairs : List (String × α)) (T now : ℕ) :
    ∀ fs : FileSys α, (pairs.map fun p => FileBasedCache.getFilePath p.1).Nodup →
      ∀ k v, (k, v) ∈ pairs →
        alookup (FileBasedCache.setAll fs pairs T now) (FileBasedCache.getFilePath k) =
          some (.entry k v (now + T)) := by
  induction pairs with
  | nil => intro fs _ k v h; exact absurd h (List.not_mem_nil _)
  | cons e rest ih =>
    intro fs hnd k v hmem
    simp only [List.map_cons, List.nodup_cons] at hnd
    rcases List.mem_cons.1 hmem with h0 | h0
    · obtain rfl : e = (k, v) := h0.symm
      show alookup (FileBasedCache.setAll (FileBasedCache.set fs k v T now) rest T now)
        (FileBasedCache.getFilePath k) = some (.entry k v (now + T))
      rw [alookup_fileSetAll_not_mem rest T now _ _ hnd.1]
      exact alookup_aset_self fs _ _
    · exact ih _ hnd.2 k v h0

/-- C8 counterexample: the distinct keys "a:b" and "a_b" share the
sanitized filename `a_b.json`; after setting both in the file-based
cache, reading "a:b" returns the value stored for "a_b" — the stored
original key is never compared on `get`, so colliding keys
cross-contaminate. -/
theorem c8_counterexample :
    ("a:b" : String) ≠ "a_b" ∧
    (FileBasedCache.get
        (FileBasedCache.set (FileBasedCache.set ([] : FileSys ℕ) "a:b" 1 100 0)
          "a_b" 2 100 0)
        "a:b" 0).1 = some 2 := by
  constructor
  · decide
  · decide

/-- C8 (amended): setting any number of pairwise-distinct keys and then
reading each back returns exactly its own value with no
cross-contamination — unconditionally for the in-memory strategy (even
when sanitized filenames coincide), and for the file-based strategy
whenever the sanitized filenames are pairwise distinct; distinct keys
whose sanitized names coincide share one file, where the last write
wins. -/
theorem c8_distinct_keys_no_contamination {α : Type} (pairs : List (String × α))
    (m : Mem α) (fs : FileSys α) (ttl now : ℕ)
    (hkeys : (pairs.map Prod.fst).Nodup) :
    (∀ p ∈ pairs,
      (InMemoryCache.get (InMemoryCache.setAll m pairs ttl now) p.1 now).1 = some p.2) ∧
    ((pairs.map fun p => FileBasedCache.getFilePath p.1).Nodup →
      ∀ p ∈ pairs,
        (FileBasedCache.get (FileBasedCache.setAll fs pairs ttl now) p.1 now).1 =
          some p.2) := by
  have hnotgt : ¬ now > now + ttl := by omega
  constructor
  · intro p hp
    have h := alookup_memSetAll_mem pairs ttl now m hkeys p.1 p.2 hp
    simp [InMemoryCache.get, h, hnotgt]
  · intro hpaths p hp
    have h := alookup_fileSetAll_mem pairs ttl now fs hpaths p.1 p.2 hp
    simp [FileBasedCache.get, h, hnotgt]

/-- C8 witness: the two distinct keys "a:b" and "a_b", whose sanitized
filenames coincide — the in-memory conjunct still applies to them. -/
theorem c8_distinct_keys_no_contamination_witness :
    (∀ p ∈ ([("a:b", 1), ("a_b", 2)] : List (String × ℕ)),
      (InMemoryCache.get
        (InMemoryCache.setAll ([] : Mem ℕ) [("a:b", 1), ("a_b", 2)] 100 0) p.1 0).1 =
          some p.2) ∧
    ((([("a:b", 1), ("a_b", 2)] : List (String × ℕ)).map
        fun p => FileBasedCache.getFilePath p.1).Nodup →
      ∀ p ∈ ([("a:b", 1), ("a_b", 2)] : List (String × ℕ)),
        (FileBasedCache.get
          (FileBasedCache.setAll ([] : FileSys ℕ) [("a:b", 1), ("a_b", 2)] 100 0)
          p.1 0).1 = some p.2) :=
  c8_distinct_keys_no_contamination [("a:b", 1), ("a_b", 2)] [] [] 100 0 (by decide)

/-- C7: a task submitted to a non-shutting-down pool with an idle unit is
posted to that unit keyed by a fresh taskId, the unit's reply is
correlated back by that taskId, and the caller's continuation resolves
with exactly the worker-side analysis — which coincides with the
in-process analyzer on every input, in particular on
"test test test word word other" where the most frequent word is
("test", 3). -/
theorem c7_pool_refines_inprocess (s : PoolState) (content : String) (i : ℕ)
    (w : WorkerState)
    (hshut : s.isShuttingDown = false)
    (hq : s.taskQueue = [])
    (hidle : s.workers.findIdx? (fun x => !x.busy) = some i)
    (hw : s.workers[i]? = some w) :
    WorkerPool.roundTrip s content =
      .ok [PoolEvent.posted i (s.taskIdCounter + 1) content,
           PoolEvent.resolved (s.taskIdCounter + 1) (workerAnalyzeText content)] ∧
    (∀ c, workerAnalyzeText c = analyzeText c) ∧
    (analyzeText "test test test word word other").mostFrequentWord =
      some ("test", 3) := by
  have hlen : i < s.workers.length := by
    by_contra hcon
    rw [List.getElem?_eq_none (by omega)] at hw
    exact Option.noConfusion hw
  refine ⟨?_, fun c => rfl, by decide⟩
  simp only [WorkerPool.roundTrip, WorkerPool.analyzeTextCall, hshut,
    Bool.false_eq_true, if_false, hq, List.nil_append]
  simp only [WorkerPool.processQueue, hidle, hw]
  simp only [WorkerPool.handleWorkerMessage, WorkerPool.workerRespond,
    List.getElem?_set_self hlen, alookup_aset_self]
  simp [WorkerPool.processQueue]

/-- C7 witness: a two-unit idle pool analyzing the spec's example
string. -/
theorem c7_pool_refines_inprocess_witness :
    WorkerPool.roundTrip
        ⟨[⟨false, none, true⟩, ⟨false, none, true⟩], [], [], 0, false⟩
        "test test test word word other" =
      .ok [PoolEvent.posted 0 1 "test test test word word other",
           PoolEvent.resolved 1
             (workerAnalyzeText "test test test word word other")] ∧
    (∀ c, workerAnalyzeText c = analyzeText c) ∧
    (analyzeText "test test test word word other").mostFrequentWord =
      some ("test", 3) :=
  c7_pool_refines_inprocess
    ⟨[⟨false, none, true⟩, ⟨false, none, true⟩], [], [], 0, false⟩
    "test test test word word other" 0 ⟨false, none, true⟩
    rfl rfl (by decide) rfl

theorem alookup_adel_ne {κ β : Type} [DecidableEq κ] (m : List (κ × β)) (k k0 : κ)
    (h : k0 ≠ k) : alookup (adel m k) k0 = alookup m k0 := by
  induction m with
  | nil => rfl
  | cons p m ih =>
    obtain ⟨k1, v1⟩ := p
    by_cases hp : k1 = k
    · subst hp
      show alookup (if k1 = k1 then m else (k1, v1) :: adel m k1) k0 =
        alookup ((k1, v1) :: m) k0
      rw [if_pos rfl]
      show alookup m k0 = if k1 = k0 then some v1 else alookup m k0
      rw [if_neg (fun he => h he.symm)]
    · show alookup (if k1 = k then m else (k1, v1) :: adel m k) k0 =
        alookup ((k1, v1) :: m) k0
      rw [if_neg hp]
      show (if k1 = k0 then some v1 else alookup (adel m k) k0) =
        if k1 = k0 then some v1 else alookup m k0
      by_cases hp0 : k1 = k0
      · rw [if_pos hp0, if_pos hp0]
      · rw [if_neg hp0, if_neg hp0, ih]

theorem findIdx?_append_singleton {α : Type} (p : α → Bool) (x : α)
    (hx : p x = true) :
    ∀ l : List α, (∀ y ∈ l, p y = false) →
      (l ++ [x]).findIdx? p = some l.length := by
  intro l
  induction l with
  | nil =>
    intro _
    simp [List.findIdx?_cons, hx]
  | cons a l ih =>
    intro hall
    have ha : p a = false := hall a (by simp)
    simp only [List.cons_append, List.findIdx?_cons, ha, Bool.false_eq_true,
      if_false, List.findIdx?_succ, List.length_cons]
    rw [ih (fun y hy => hall y (by simp [hy]))]
    rfl

/-- C9 counterexample: a 1-unit pool whose unit has just exited: the
restart path appends the replacement instead of replacing at the dead
unit's index, so the workers list grows to 2 entries with the dead unit
still recorded at index 0 — the set of units does not stay at poolSize. -/
theorem c9_counterexample :
    ((WorkerPool.onWorkerExit ⟨[⟨false, none, false⟩], [], [], 0, false⟩ 0).1.workers.length
        = 2) ∧
    ¬ ((WorkerPool.onWorkerExit ⟨[⟨false, none, false⟩], [], [], 0, false⟩ 0).1.workers.length
        = 1) ∧
    (WorkerPool.onWorkerExit ⟨[⟨false, none, false⟩], [], [], 0, false⟩ 0).1.workers[0]? =
      some ⟨false, none, false⟩ := by
  refine ⟨rfl, by decide, rfl⟩

/-- C9 (amended): on an unexpected unit exit while not shutting down, the
pool terminates the dead unit and spawns a fresh idle replacement, but the
replacement is appended at the end while the dead unit's state is retained
at its index, so the workers list grows to poolSize + 1; the dispatch scan
is re-run, so with every original unit busy a queued task is immediately
posted to the fresh replacement rather than stranded.  A unit that errors
while holding a task rejects only that task (other in-flight tasks are
untouched), becomes idle again and is not torn down. -/
theorem c9_exit_restart_and_error (s : PoolState) (i : ℕ) (msg : String)
    (w : WorkerState) (tid : ℕ) (t t2 : WorkerTask)
    (hshut : s.isShuttingDown = false)
    (hw : s.workers[i]? = some w) :
    (s.taskQueue = [] →
      (WorkerPool.onWorkerExit s i).1.workers.length = s.workers.length + 1 ∧
      (WorkerPool.onWorkerExit s i).1.workers[i]? = some ⟨w.busy, w.taskId, false⟩ ∧
      (WorkerPool.onWorkerExit s i).1.workers[s.workers.length]? =
        some ⟨false, none, true⟩ ∧
      (WorkerPool.onWorkerExit s i).2 = [.terminated i]) ∧
    (s.taskQueue = [t2] → (∀ y ∈ s.workers, y.busy = true) →
      (WorkerPool.onWorkerExit s i).1.taskQueue = [] ∧
      (WorkerPool.onWorkerExit s i).2 =
        [.terminated i, .posted s.workers.length t2.taskId t2.content]) ∧
    (s.taskQueue = [] → w.taskId = some tid →
      alookup s.activeTasks tid = some t →
      (WorkerPool.handleWorkerError s i msg).1.workers.length = s.workers.length ∧
      (WorkerPool.handleWorkerError s i msg).1.workers[i]? =
        some ⟨false, none, w.alive⟩ ∧
      (WorkerPool.handleWorkerError s i msg).2 = [.rejected t.taskId msg] ∧
      ∀ tid2, tid2 ≠ tid →
        alookup (WorkerPool.handleWorkerError s i msg).1.activeTasks tid2 =
          alookup s.activeTasks tid2) := by
  have hlen : i < s.workers.length := by
    by_contra hcon
    rw [List.getElem?_eq_none (by omega)] at hw
    exact Option.noConfusion hw
  have hwmem : w ∈ s.workers := by
    obtain ⟨h3, h4⟩ := List.getElem?_eq_some.mp hw
    exact h4 ▸ List.getElem_mem h3
  refine ⟨?_, ?_, ?_⟩
  · intro hq
    simp only [WorkerPool.onWorkerExit, hshut, Bool.false_eq_true, if_false,
      WorkerPool.restartWorker, WorkerPool.createWorker, hw,
      WorkerPool.processQueue, hq]
    refine ⟨by simp, ?_, ?_, ?_⟩
    · rw [List.getElem?_append_left (by simp [hlen])]
      simp [List.getElem?_set_self hlen]
    · rw [show s.workers.length =
          (s.workers.set i { w with alive := false }).length from by simp]
      exact List.getElem?_concat_length _ _
    · trivial
  · intro hq hbusy
    have hfind := findIdx?_append_singleton (fun wk : WorkerState => !wk.busy)
      (⟨false, none, true⟩ : WorkerState) rfl
      (s.workers.set i { w with alive := false })
      (by
        intro y hy
        rcases List.mem_or_eq_of_mem_set hy with h2 | h2
        · simp [hbusy y h2]
        · subst h2
          simp [hbusy w hwmem])
    have hget : ((s.workers.set i { w with alive := false }) ++
        [(⟨false, none, true⟩ : WorkerState)])[(s.workers.set i
          { w with alive := false }).length]? =
        some ⟨false, none, true⟩ :=
      List.getElem?_concat_length _ _
    simp only [WorkerPool.onWorkerExit, hshut, Bool.false_eq_true, if_false,
      WorkerPool.restartWorker, WorkerPool.createWorker, hw,
      WorkerPool.processQueue, hq, hfind, hget]
    exact ⟨trivial, by simp⟩
  · intro hq htid hat
    simp only [WorkerPool.handleWorkerError, hw, htid, hat,
      WorkerPool.processQueue, hq]
    refine ⟨by simp, ?_, ?_, ?_⟩
    · simp [List.getElem?_set_self hlen]
    · rfl
    · intro tid2 hne
      exact alookup_adel_ne s.activeTasks tid tid2 hne

/-- C9 witness: one busy unit holding task 1 dies with a task queued, and
the error path on the same pool shape with an empty queue. -/
theorem c9_exit_restart_and_error_witness :
    (([] : List WorkerTask) = [] →
      (WorkerPool.onWorkerExit
          ⟨[⟨true, some 1, true⟩], [], [(1, ⟨1, "x"⟩)], 1, false⟩ 0).1.workers.length =
        ([⟨true, some 1, true⟩] : List WorkerState).length + 1 ∧
      (WorkerPool.onWorkerExit
          ⟨[⟨true, some 1, true⟩], [], [(1, ⟨1, "x"⟩)], 1, false⟩ 0).1.workers[0]? =
        some ⟨true, some 1, false⟩ ∧
      (WorkerPool.onWorkerExit
          ⟨[⟨true, some 1, true⟩], [], [(1, ⟨1, "x"⟩)], 1, false⟩
            0).1.workers[([⟨true, some 1, true⟩] : List WorkerState).length]? =
        some ⟨false, none, true⟩ ∧
      (WorkerPool.onWorkerExit
          ⟨[⟨true, some 1, true⟩], [], [(1, ⟨1, "x"⟩)], 1, false⟩ 0).2 =
        [.terminated 0]) ∧
    (([] : List WorkerTask) = [⟨2, "y"⟩] →
      (∀ y ∈ ([⟨true, some 1, true⟩] : List WorkerState), y.busy = true) →
      (WorkerPool.onWorkerExit
          ⟨[⟨true, some 1, true⟩], [], [(1, ⟨1, "x"⟩)], 1, false⟩ 0).1.taskQueue = [] ∧
      (WorkerPool.onWorkerExit
          ⟨[⟨true, some 1, true⟩], [], [(1, ⟨1, "x"⟩)], 1, false⟩ 0).2 =
        [.terminated 0,
         .posted ([⟨true, some 1, true⟩] : List WorkerState).length 2 "y"]) ∧
    (([] : List WorkerTask) = [] → (some 1 : Option ℕ) = some 1 →
      alookup ([(1, ⟨1, "x"⟩)] : List (ℕ × WorkerTask)) 1 = some ⟨1, "x"⟩ →
      (WorkerPool.handleWorkerError
          ⟨[⟨true, some 1, true⟩], [], [(1, ⟨1, "x"⟩)], 1, false⟩ 0 "boom").1.workers.length =
        ([⟨true, some 1, true⟩] : List WorkerState).length ∧
      (WorkerPool.handleWorkerError
          ⟨[⟨true, some 1, true⟩], [], [(1, ⟨1, "x"⟩)], 1, false⟩ 0 "boom").1.workers[0]? =
        some ⟨false, none, true⟩ ∧
      (WorkerPool.handleWorkerError
          ⟨[⟨true, some 1, true⟩], [], [(1, ⟨1, "x"⟩)], 1, false⟩ 0 "boom").2 =
        [.rejected 1 "boom"] ∧
      ∀ tid2, tid2 ≠ 1 →
        alookup (WorkerPool.handleWorkerError
            ⟨[⟨true, some 1, true⟩], [], [(1, ⟨1, "x"⟩)], 1, false⟩
              0 "boom").1.activeTasks tid2 =
          alookup ([(1, ⟨1, "x"⟩)] : List (ℕ × WorkerTask)) tid2) :=
  c9_exit_restart_and_error
    ⟨[⟨true, some 1, true⟩], [], [(1, ⟨1, "x"⟩)], 1, false⟩
    0 "boom" ⟨true, some 1, true⟩ 1 ⟨1, "x"⟩ ⟨2, "y"⟩ rfl rfl

/-- C10: beginning a shutdown rejects every queued task and then every
in-flight task with the shutting-down error before any unit-termination
event, clears the workers, queue and correlation table, makes every
subsequent `analyzeText` call reject immediately, and a second
`shutdown()` is a no-op. -/
theorem c10_shutdown_rejects_then_terminates (s : PoolState)
    (hs : s.isShuttingDown = false) :
    (WorkerPool.shutdown s).2 =
      (s.taskQueue.map fun t =>
        PoolEvent.rejected t.taskId "Worker pool is shutting down") ++
      (s.activeTasks.map fun p =>
        PoolEvent.rejected p.1 "Worker pool is shutting down") ++
      ((List.range s.workers.length).map PoolEvent.terminated) ∧
    (WorkerPool.shutdown s).1.workers = [] ∧
    (WorkerPool.shutdown s).1.taskQueue = [] ∧
    (WorkerPool.shutdown s).1.activeTasks = [] ∧
    (WorkerPool.shutdown s).1.isShuttingDown = true ∧
    (∀ content, WorkerPool.analyzeTextCall (WorkerPool.shutdown s).1 content =
      .error "Worker pool is shutting down") ∧
    WorkerPool.shutdown (WorkerPool.shutdown s).1 = ((WorkerPool.shutdown s).1, []) := by
  simp [WorkerPool.shutdown, hs, WorkerPool.analyzeTextCall]

/-- C10 witness: a pool with one unit, one queued and one in-flight
task. -/
theorem c10_shutdown_rejects_then_terminates_witness :
    (WorkerPool.shutdown
        ⟨[⟨true, some 1, true⟩], [⟨2, "y"⟩], [(1, ⟨1, "x"⟩)], 2, false⟩).2 =
      (([⟨2, "y"⟩] : List WorkerTask).map fun t =>
        PoolEvent.rejected t.taskId "Worker pool is shutting down") ++
      (([(1, ⟨1, "x"⟩)] : List (ℕ × WorkerTask)).map fun p =>
        PoolEvent.rejected p.1 "Worker pool is shutting down") ++
      ((List.range ([⟨true, some 1, true⟩] : List WorkerState).length).map
        PoolEvent.terminated) ∧
    (WorkerPool.shutdown
        ⟨[⟨true, some 1, true⟩], [⟨2, "y"⟩], [(1, ⟨1, "x"⟩)], 2, false⟩).1.workers = [] ∧
    (WorkerPool.shutdown
        ⟨[⟨true, some 1, true⟩], [⟨2, "y"⟩], [(1, ⟨1, "x"⟩)], 2, false⟩).1.taskQueue = [] ∧
    (WorkerPool.shutdown
        ⟨[⟨true, some 1, true⟩], [⟨2, "y"⟩], [(1, ⟨1, "x"⟩)], 2, false⟩).1.activeTasks = [] ∧
    (WorkerPool.shutdown
        ⟨[⟨true, some 1, true⟩], [⟨2, "y"⟩], [(1, ⟨1, "x"⟩)], 2, false⟩).1.isShuttingDown
      = true ∧
    (∀ content, WorkerPool.analyzeTextCall
        (WorkerPool.shutdown
          ⟨[⟨true, some 1, true⟩], [⟨2, "y"⟩], [(1, ⟨1, "x"⟩)], 2, false⟩).1 content =
      .error "Worker pool is shutting down") ∧
    WorkerPool.shutdown
        (WorkerPool.shutdown
          ⟨[⟨true, some 1, true⟩], [⟨2, "y"⟩], [(1, ⟨1, "x"⟩)], 2, false⟩).1 =
      ((WorkerPool.shutdown
          ⟨[⟨true, some 1, true⟩], [⟨2, "y"⟩], [(1, ⟨1, "x"⟩)], 2, false⟩).1, []) :=
  c10_shutdown_rejects_then_terminates
    ⟨[⟨true, some 1, true⟩], [⟨2, "y"⟩], [(1, ⟨1, "x"⟩)], 2, false⟩ rfl
